import Mathlib

/-!
Shallow embedding of the Unity Addressables catalog reader
(`src/UnityCatalogReader.py`) and proofs about the claims on its
specification.

Conventions of the embedding:
* Byte buffers are `List Nat` (each element a byte value).
* Python's slice semantics (including negative indices and silent
  truncation) are modelled by `pySlice`.
* `struct.unpack` based accessors return `Option` (`none` models the
  raised `struct.error` / `IndexError`); `BinaryReader.read` itself is
  total, exactly as in the source (a Python slice never raises).
* Functions that chase file offsets can diverge or recurse in the
  source; they take a fuel parameter.  Fuel exhaustion models Python's
  recursion limit (`RecursionError`) for `_read_binary_resource_location`
  and divergence for the chained-string walk.
* Python dictionaries are association lists with overwriting insert
  (`upsert`); `hash` of a string is an opaque parameter `hh` since
  Python string hashing is process-randomised.
-/

/-- Little-endian value of a byte list (first byte least significant). -/
def leVal (bs : List Nat) : Nat := bs.foldr (fun b acc => b + 256 * acc) 0

/-- Two's-complement reinterpretation of a `w`-bit unsigned value. -/
def toSigned (w : Nat) (v : Nat) : Int :=
  if v < 2 ^ (w - 1) then (v : Int) else (v : Int) - 2 ^ w

/-- Python slice `l[a:b]` with full Python semantics: negative indices
count from the end, out-of-range bounds are clamped, never raises. -/
def pySlice {α : Type} (l : List α) (a b : Int) : List α :=
  let n := l.length
  let lo : Nat := if a < 0 then (if a + n < 0 then 0 else (a + n).toNat) else min a.toNat n
  let hi : Nat := if b < 0 then (if b + n < 0 then 0 else (b + n).toNat) else min b.toNat n
  (l.take hi).drop lo

/-- Python element access `l[i]` (negative `i` counts from the end),
`none` models `IndexError`. -/
def pyGet {α : Type} (l : List α) (i : Int) : Option α :=
  if 0 ≤ i then l.get? i.toNat
  else if (-i) ≤ (l.length : Int) then l.get? (l.length - (-i).toNat)
  else none

/-- Helper for `hasSub`: does `p` occur as a contiguous run in the list? -/
def subAux (p : List Char) : List Char → Bool
  | [] => p.isEmpty
  | c :: t => p.isPrefixOf (c :: t) || subAux p t

/-- Python's substring test `pat in s`. -/
def hasSub (s pat : String) : Bool := subAux pat.data s.data

/-- Lowercase hex digit. -/
def hexChar (n : Nat) : Char :=
  if n < 10 then Char.ofNat (48 + n) else Char.ofNat (87 + n)

/-- Python `bytes.hex()`: lowercase hex string of a byte list. -/
def bytesHex (bs : List Nat) : String :=
  String.mk (List.flatten (bs.map (fun b => [hexChar (b / 16), hexChar (b % 16)])))

/-- Python `f"0x\x7bv:08x\x7d"` formatting of a 32-bit value. -/
def hex8 (n : Nat) : String :=
  "0x" ++ String.mk ((List.range 8).reverse.map (fun i => hexChar (n / 16 ^ i % 16)))

/-- Python `bytes.decode("ascii", errors="ignore")`: bytes above 0x7F
are dropped. -/
def asciiDecode (bs : List Nat) : List Char :=
  bs.filterMap (fun b => if b ≤ 0x7F then some (Char.ofNat b) else none)

/-- Group bytes into little-endian 16-bit code units; a trailing lone
byte is dropped (as `errors="ignore"` does). -/
def utf16Units : List Nat → List Nat
  | a :: b :: rest => (a + 256 * b) :: utf16Units rest
  | _ => []

/-- Python `bytes.decode("utf-16le", errors="ignore")` on the code-unit
list: surrogate pairs are combined, lone surrogates dropped. -/
def utf16Aux : Option Nat → List Nat → List Char
  | _, [] => []
  | none, u :: rest =>
    if 0xD800 ≤ u ∧ u ≤ 0xDBFF then utf16Aux (some u) rest
    else if 0xDC00 ≤ u ∧ u ≤ 0xDFFF then utf16Aux none rest
    else Char.ofNat u :: utf16Aux none rest
  | some hsur, u :: rest =>
    if 0xDC00 ≤ u ∧ u ≤ 0xDFFF then
      Char.ofNat (0x10000 + (hsur - 0xD800) * 0x400 + (u - 0xDC00)) :: utf16Aux none rest
    else if 0xD800 ≤ u ∧ u ≤ 0xDBFF then utf16Aux (some u) rest
    else Char.ofNat u :: utf16Aux none rest

/-- The character stream: a pending high surrogate is carried along by
`utf16Aux`; unpaired surrogates are dropped. -/
def utf16Chars (l : List Nat) : List Char := utf16Aux none l

/-- Decode a byte list with `"utf-16le"` when `uni`, `"ascii"` otherwise
(both with `errors="ignore"`), as `read_basic_string` does. -/
def decodeBytes (uni : Bool) (bs : List Nat) : String :=
  if uni then String.mk (utf16Chars (utf16Units bs)) else String.mk (asciiDecode bs)

/-- Overwriting insert into an association list (Python `d[k] = v`). -/
def upsert {κ ν : Type} [BEq κ] (m : List (κ × ν)) (k : κ) (v : ν) : List (κ × ν) :=
  (k, v) :: m.filter (fun p => !(p.1 == k))

/-- Sequence a list of options (`none` if any element is `none`). -/
def seqOptions {α : Type} : List (Option α) → Option (List α)
  | [] => some []
  | none :: _ => none
  | some a :: t => (seqOptions t).map (a :: ·)

/-- Python `x or default` for an optional string: `None` and `""` are
falsy and fall through to the default. -/
def pyOr (x : Option String) (d : String) : String :=
  match x with
  | none => d
  | some s => if s = "" then d else s

/-- `CatalogFileType` enum of the source. -/
inductive CatalogFileType where
  | NONE
  | JSON
  | BINARY
deriving DecidableEq, Repr

/-- `SerializedType` dataclass. -/
structure SerializedType where
  assembly_name : String
  class_name : String
deriving DecidableEq, Repr

/-- `SerializedType.get_assembly_short_name`: part before the first
comma (the whole name when there is no comma). -/
def SerializedType.get_assembly_short_name (t : SerializedType) : String :=
  if hasSub t.assembly_name "," then (t.assembly_name.splitOn ",").headD t.assembly_name
  else t.assembly_name

/-- `SerializedType.get_match_name`. -/
def SerializedType.get_match_name (t : SerializedType) : String :=
  t.get_assembly_short_name ++ "; " ++ t.class_name

/-- `CommonInfo` dataclass (AssetBundleRequestOptions common data). -/
structure CommonInfo where
  timeout : Int
  redirect_limit : Nat
  retry_count : Nat
  asset_load_mode : Int
  chunked_transfer : Bool
  use_crc_for_cached_bundle : Bool
  use_unity_web_request_for_local_bundles : Bool
  clear_other_cached_versions_when_loaded : Bool
  version : Nat
deriving DecidableEq, Repr

/-- The dictionary built by `read_asset_bundle_request_options`. -/
structure AbroData where
  bundle_name : String
  bundle_size : Nat
  crc : String
  hash : String
  common_info : Option CommonInfo
deriving DecidableEq, Repr

/-- Decoded typed value, the possible non-`None` results of
`decode_object` (Python returns `int`, `bool`, `str` or the options
dict). -/
inductive Value where
  | vInt (i : Int)
  | vBool (b : Bool)
  | vStr (s : String)
  | vDict (d : AbroData)
deriving DecidableEq, Repr

/-- `AssetInfo` dataclass (fields in source order).  Recursive through
`dependencies`, hence an inductive. -/
inductive AssetInfo where
  | mk (key : String) (internal_id : String) (provider_id : String) (primary_key : String)
      (dependency_hash_code : Int) (dependency_key : Option String)
      (dependencies : Option (List AssetInfo)) (bundle_name : String) (bundle_size : Nat)
      (crc : String) (hash : String) (resource_type : Option SerializedType)
      (data : Option AbroData) (hash_code : Int) (common_info : Option CommonInfo)

def AssetInfo.key : AssetInfo → String
  | .mk k _ _ _ _ _ _ _ _ _ _ _ _ _ _ => k

def AssetInfo.primary_key : AssetInfo → String
  | .mk _ _ _ pk _ _ _ _ _ _ _ _ _ _ _ => pk

def AssetInfo.dependency_key : AssetInfo → Option String
  | .mk _ _ _ _ _ dk _ _ _ _ _ _ _ _ _ => dk

def AssetInfo.dependencies : AssetInfo → Option (List AssetInfo)
  | .mk _ _ _ _ _ _ d _ _ _ _ _ _ _ _ => d

def AssetInfo.internal_id : AssetInfo → String
  | .mk _ i _ _ _ _ _ _ _ _ _ _ _ _ _ => i

def AssetInfo.bundle_name : AssetInfo → String
  | .mk _ _ _ _ _ _ _ bn _ _ _ _ _ _ _ => bn

/-- The state of the source's `BinaryReader`: the buffer, the cursor
position and the three decode-scoped caches. -/
structure BinaryReader where
  data : List Nat
  position : Int
  version : Nat
  string_cache : List (Nat × Option String)
  offset_cache : List (Nat × List Nat)
  resource_cache : List (Nat × String)
deriving DecidableEq, Repr

/-- Fresh reader over a buffer (`BinaryReader.__init__`). -/
def mkReader (data : List Nat) : BinaryReader :=
  { data := data, position := 0, version := 1
    string_cache := [], offset_cache := [], resource_cache := [] }

/-- `self.pos = value` (the position setter). -/
def setPos (st : BinaryReader) (p : Int) : BinaryReader := { st with position := p }

/-- `BinaryReader.read`: returns `self.data[position : position+length]`
and advances the position by `length` unconditionally — a Python slice
never raises, it silently truncates. -/
def BinaryReader.read (st : BinaryReader) (n : Int) : List Nat × BinaryReader :=
  (pySlice st.data st.position (st.position + n), setPos st (st.position + n))

/-- A read that must produce exactly `k` bytes, as `struct.unpack`
requires; `none` models the raised `struct.error`. -/
def readExact (st : BinaryReader) (k : Nat) : Option (List Nat × BinaryReader) :=
  let r := st.read k
  if r.1.length = k then some r else none

/-- `BinaryReader.u8` (`read(1)[0]`; `none` models `IndexError`). -/
def BinaryReader.u8 (st : BinaryReader) : Option (Nat × BinaryReader) :=
  (readExact st 1).map (fun r => (r.1.headD 0, r.2))

/-- `BinaryReader.u16`. -/
def BinaryReader.u16 (st : BinaryReader) : Option (Nat × BinaryReader) :=
  (readExact st 2).map (fun r => (leVal r.1, r.2))

/-- `BinaryReader.u32`. -/
def BinaryReader.u32 (st : BinaryReader) : Option (Nat × BinaryReader) :=
  (readExact st 4).map (fun r => (leVal r.1, r.2))

/-- `struct.unpack("<h", read(2))` used for `CommonInfo.timeout`. -/
def BinaryReader.i16 (st : BinaryReader) : Option (Int × BinaryReader) :=
  (readExact st 2).map (fun r => (toSigned 16 (leVal r.1), r.2))

/-- `BinaryReader.i32`. -/
def BinaryReader.i32 (st : BinaryReader) : Option (Int × BinaryReader) :=
  (readExact st 4).map (fun r => (toSigned 32 (leVal r.1), r.2))

/-- `BinaryReader.i64`. -/
def BinaryReader.i64 (st : BinaryReader) : Option (Int × BinaryReader) :=
  (readExact st 8).map (fun r => (toSigned 64 (leVal r.1), r.2))

/-- `BinaryReader.bool_val` (`u8 != 0`). -/
def BinaryReader.bool_val (st : BinaryReader) : Option (Bool × BinaryReader) :=
  (st.u8).map (fun r => (r.1 != 0, r.2))

/-- `BinaryReader.str(length, "utf-16le")`: reads `length` bytes and
decodes them, never failing (`errors="ignore"`). -/
def BinaryReader.strU16 (st : BinaryReader) (n : Int) : String × BinaryReader :=
  let r := st.read n
  (String.mk (utf16Chars (utf16Units r.1)), r.2)

/-- `BinaryReader.read_basic_string`: seek to `offset-4`, read an `i32`
length, read and decode that many bytes. -/
def read_basic_string (st : BinaryReader) (offset : Nat) (uni : Bool) :
    Option (String × BinaryReader) :=
  match (setPos st ((offset : Int) - 4)).i32 with
  | none => none
  | some (len, st1) =>
    let r := st1.read len
    some (decodeBytes uni r.1, r.2)

/-- The "absent" sentinel offset. -/
def SENTINEL : Nat := 0xFFFFFFFF

mutual

/-- `BinaryReader.read_encoded_string`: sentinel gives `None`; the cache
is consulted with the raw offset; bit31 selects UTF-16, bit30 (together
with a non-NUL separator) selects the chained representation; the
remaining 30 bits are the real offset.  Note that the source rebinds
`offset` to the masked value before the cache store, so the result is
cached under the masked offset. -/
def read_encoded_string : Nat → BinaryReader → Nat → String → Option (Option String × BinaryReader)
  | 0, _, _, _ => none
  | Nat.succ fuel, st, offset, sep =>
    if offset = SENTINEL then some (none, st)
    else match st.string_cache.lookup offset with
    | some s => some (s, st)
    | none =>
      let uni : Bool := offset &&& 0x80000000 != 0
      let dyn : Bool := (offset &&& 0x40000000 != 0) && (sep != "\x00")
      let masked := offset &&& 0x3FFFFFFF
      if dyn then
        match read_dynamic_string fuel st masked uni sep with
        | none => none
        | some (res, st1) =>
          some (res, { st1 with string_cache := upsert st1.string_cache masked res })
      else
        match read_basic_string st masked uni with
        | none => none
        | some (s, st1) =>
          some (some s, { st1 with string_cache := upsert st1.string_cache masked (some s) })

/-- `BinaryReader.read_dynamic_string`: seek to `offset`, walk the chain
collecting parts, then return the single part unchanged or the parts
joined with `sep`, in file order for `version <= 1` and reversed
otherwise.  A `None` part inside a joined chain is Python's `TypeError`
in `sep.join` (modelled as failure); the `unicode` parameter is unused,
as in the source. -/
def read_dynamic_string : Nat → BinaryReader → Nat → Bool → String → Option (Option String × BinaryReader)
  | 0, _, _, _, _ => none
  | Nat.succ fuel, st, offset, _uni, sep =>
    match chain_walk fuel (setPos st (offset : Int)) _uni sep with
    | none => none
    | some (parts, st1) =>
      if parts.length = 1 then some (parts.headD none, st1)
      else match seqOptions parts with
        | none => none
        | some ss =>
          some (some (String.intercalate sep (if st1.version ≤ 1 then ss else ss.reverse)), st1)

/-- The `while True` loop of `read_dynamic_string`: read a
`(partOffset, nextOffset)` pair, resolve the part with the NUL
separator, stop at the sentinel, otherwise seek to `nextOffset` and
continue.  Fuel exhaustion models divergence of the loop. -/
def chain_walk : Nat → BinaryReader → Bool → String → Option (List (Option String) × BinaryReader)
  | 0, _, _, _ => none
  | Nat.succ fuel, st, uni, sep =>
    match st.u32 with
    | none => none
    | some (pOff, st1) =>
      match st1.u32 with
      | none => none
      | some (nOff, st2) =>
        match read_encoded_string fuel st2 pOff "\x00" with
        | none => none
        | some (part, st3) =>
          if nOff = SENTINEL then some ([part], st3)
          else match chain_walk fuel (setPos st3 (nOff : Int)) uni sep with
            | none => none
            | some (rest, st4) => some (part :: rest, st4)

end

/-- `[self.u32 for _ in range(n)]`. -/
def readU32s (st : BinaryReader) : Nat → Option (List Nat × BinaryReader)
  | 0 => some ([], st)
  | Nat.succ n =>
    match st.u32 with
    | none => none
    | some (v, st1) =>
      match readU32s st1 n with
      | none => none
      | some (vs, st2) => some (v :: vs, st2)

/-- `BinaryReader.read_offset_array`: sentinel gives the empty array,
the offset cache is consulted first; otherwise read an `i32` byte size
at `offset-4`, require it to be a multiple of 4 (`ValueError` i.e.
failure otherwise), then read `size / 4` little-endian `u32` values and
cache them. -/
def read_offset_array (st : BinaryReader) (offset : Nat) : Option (List Nat × BinaryReader) :=
  if offset = SENTINEL then some ([], st)
  else match st.offset_cache.lookup offset with
  | some arr => some (arr, st)
  | none =>
    match (setPos st ((offset : Int) - 4)).i32 with
    | none => none
    | some (byteSize, st1) =>
      if byteSize % 4 != 0 then none
      else
        match readU32s st1 (byteSize / 4).toNat with
        | none => none
        | some (arr, st2) =>
          some (arr, { st2 with offset_cache := upsert st2.offset_cache offset arr })

/-- `BinaryReader.read_serialized_type`: sentinel gives `None`;
otherwise read two `u32` string offsets at `offset` and resolve both
with the `"."` separator (falling back to `""`). -/
def read_serialized_type (fuel : Nat) (st : BinaryReader) (offset : Nat) :
    Option (Option SerializedType × BinaryReader) :=
  if offset = SENTINEL then some (none, st)
  else match (setPos st (offset : Int)).u32 with
  | none => none
  | some (aOff, st1) =>
    match st1.u32 with
    | none => none
    | some (cOff, st2) =>
      match read_encoded_string fuel st2 aOff "." with
      | none => none
      | some (an, st3) =>
        match read_encoded_string fuel st3 cOff "." with
        | none => none
        | some (cn, st4) =>
          some (some { assembly_name := an.getD "", class_name := cn.getD "" }, st4)

/-- `BinaryReader.read_hash128`: `0` or the sentinel give `""`,
otherwise read 16 bytes at `offset` and render them as hex (a short
slice is still rendered, since `read` never fails). -/
def read_hash128 (st : BinaryReader) (offset : Nat) : String × BinaryReader :=
  if offset = 0 ∨ offset = SENTINEL then ("", st)
  else
    let r := (setPos st (offset : Int)).read 16
    (bytesHex r.1, r.2)

/-- `BinaryReader.read_common_info`: `0` or the sentinel give `None`;
otherwise a signed 16-bit timeout, two `u8` counters and an `i32` flag
word decoded into the boolean options, with `version` fixed at 3. -/
def read_common_info (st : BinaryReader) (offset : Nat) :
    Option (Option CommonInfo × BinaryReader) :=
  if offset = 0 ∨ offset = SENTINEL then some (none, st)
  else match (setPos st (offset : Int)).i16 with
  | none => none
  | some (timeout, st1) =>
    match st1.u8 with
    | none => none
    | some (redirect, st2) =>
      match st2.u8 with
      | none => none
      | some (retry, st3) =>
        match st3.i32 with
        | none => none
        | some (flags, st4) =>
          some (some
            { timeout := timeout, redirect_limit := redirect, retry_count := retry
              asset_load_mode := Int.land flags 1
              chunked_transfer := Int.land flags 2 != 0
              use_crc_for_cached_bundle := Int.land flags 4 != 0
              use_unity_web_request_for_local_bundles := Int.land flags 8 != 0
              clear_other_cached_versions_when_loaded := Int.land flags 16 != 0
              version := 3 }, st4)

/-- `BinaryReader.read_asset_bundle_request_options`: five `u32` fields
at `offset`, then the hash, the common info and finally the bundle name
(resolved with separator `"_"`), in the evaluation order of the
source. -/
def read_asset_bundle_request_options (fuel : Nat) (st : BinaryReader) (offset : Nat) :
    Option (AbroData × BinaryReader) :=
  match (setPos st (offset : Int)).u32 with
  | none => none
  | some (hashOff, st1) =>
    match st1.u32 with
    | none => none
    | some (bnOff, st2) =>
      match st2.u32 with
      | none => none
      | some (crc, st3) =>
        match st3.u32 with
        | none => none
        | some (bundleSize, st4) =>
          match st4.u32 with
          | none => none
          | some (ciOff, st5) =>
            let rh := read_hash128 st5 hashOff
            match read_common_info rh.2 ciOff with
            | none => none
            | some (ci, st6) =>
              match read_encoded_string fuel st6 bnOff "_" with
              | none => none
              | some (bn, st7) =>
                some ({ bundle_name := bn.getD "", bundle_size := bundleSize
                        crc := hex8 crc, hash := rh.1, common_info := ci }, st7)

/-- `BinaryReader.decode_object`: sentinel gives `None`; read
`(typeNameOffset, objectOffset)` at `offset`; `typeNameOffset == 0` is
the explicit no-type marker; otherwise resolve the type, match its
match-name against the fixed substring table in source order, and
decode — `objectOffset == SENTINEL` short-circuits each branch to the
type's default without any further seek or read. -/
def decode_object (fuel : Nat) (st : BinaryReader) (offset : Nat) :
    Option (Option Value × BinaryReader) :=
  if offset = SENTINEL then some (none, st)
  else match (setPos st (offset : Int)).u32 with
  | none => none
  | some (tOff, st1) =>
    match st1.u32 with
    | none => none
    | some (oOff, st2) =>
      let isDefault := oOff = SENTINEL
      if tOff = 0 then some (none, st2)
      else match read_serialized_type fuel st2 tOff with
      | none => none
      | some (none, st3) => some (none, st3)
      | some (some ty, st3) =>
        let m := ty.get_match_name
        if hasSub m "System.Int32" then
          if isDefault then some (some (.vInt 0), st3)
          else match (setPos st3 (oOff : Int)).i32 with
            | none => none
            | some (v, st4) => some (some (.vInt v), st4)
        else if hasSub m "System.Int64" then
          if isDefault then some (some (.vInt 0), st3)
          else match (setPos st3 (oOff : Int)).i64 with
            | none => none
            | some (v, st4) => some (some (.vInt v), st4)
        else if hasSub m "System.Boolean" then
          if isDefault then some (some (.vBool false), st3)
          else match (setPos st3 (oOff : Int)).bool_val with
            | none => none
            | some (v, st4) => some (some (.vBool v), st4)
        else if hasSub m "System.String" then
          if isDefault then some (some (.vStr ""), st3)
          else match (setPos st3 (oOff : Int)).u32 with
            | none => none
            | some (strOff, st4) =>
              let rs := st4.strU16 2
              match read_encoded_string fuel rs.2 strOff rs.1 with
              | none => none
              | some (res, st5) => some (res.map .vStr, st5)
        else if hasSub m "UnityEngine.Hash128" then
          if isDefault then some (none, st3)
          else
            let rh := read_hash128 st3 oOff
            some (some (.vStr rh.1), rh.2)
        else if hasSub m "AssetBundleRequestOptions" then
          if isDefault then some (none, st3)
          else match read_asset_bundle_request_options fuel st3 oOff with
            | none => none
            | some (d, st4) => some (some (.vDict d), st4)
        else some (none, st3)

/-- `UnityCatalogReader._detect_file_type`: unpack the first four bytes
as a little-endian `u32`; the two accepted magics select the binary
path, any other value the JSON path; fewer than four bytes (so
`struct.unpack` raises, caught by the blanket handler) gives `NONE`. -/
def detect_file_type (data : List Nat) : CatalogFileType :=
  if (data.take 4).length = 4 then
    let magic := leVal (data.take 4)
    if magic = 0x0DE38942 ∨ magic = 0x4289E30D then CatalogFileType.BINARY
    else CatalogFileType.JSON
  else CatalogFileType.NONE

/-- The binary catalog header as read by `_load_binary_catalog`. -/
structure CatalogHeader where
  version : Nat
  keys_offset : Nat
  id_offset : Nat
  instance_provider_offset : Nat
  scene_provider_offset : Nat
  init_objects_array_offset : Nat
  build_result_hash_offset : Nat
deriving DecidableEq, Repr

/-- The header phase of `UnityCatalogReader._load_binary_catalog`: skip
the 4-byte signature, read the version (only 1 and 2 accepted), store
it on the reader, read the five fixed `u32` offsets, and read the sixth
(`buildResultHash`) offset only outside the `version == 1 ∧
keysOffset == 32` quirk, which instead substitutes the sentinel. -/
def load_binary_header (data : List Nat) : Option (CatalogHeader × BinaryReader) :=
  let r0 := (mkReader data).read 4
  match r0.2.u32 with
  | none => none
  | some (version, st1) =>
    if version ≠ 1 ∧ version ≠ 2 then none
    else
      let st1 := { st1 with version := version }
      match st1.u32 with
      | none => none
      | some (keysOff, st2) =>
        match st2.u32 with
        | none => none
        | some (idOff, st3) =>
          match st3.u32 with
          | none => none
          | some (ipOff, st4) =>
            match st4.u32 with
            | none => none
            | some (spOff, st5) =>
              match st5.u32 with
              | none => none
              | some (ioOff, st6) =>
                if version = 1 ∧ keysOff = 32 then
                  some ({ version := version, keys_offset := keysOff, id_offset := idOff
                          instance_provider_offset := ipOff, scene_provider_offset := spOff
                          init_objects_array_offset := ioOff
                          build_result_hash_offset := SENTINEL }, st6)
                else match st6.u32 with
                  | none => none
                  | some (brhOff, st7) =>
                    some ({ version := version, keys_offset := keysOff, id_offset := idOff
                            instance_provider_offset := ipOff, scene_provider_offset := spOff
                            init_objects_array_offset := ioOff
                            build_result_hash_offset := brhOff }, st7)

/-- One iteration of the dependency `for` loop in
`_read_binary_resource_location`: a previously failed iteration leaves
the aborted state untouched (the surrounding `try` discarded the rest
of the loop); otherwise decode the dependency with `f` (a failure
aborts the loop, keeping the mutated reader and asset map as Python's
in-place state does), then append `assets[resource_cache[o]]` when both
lookups succeed. -/
def dep_step (f : BinaryReader → List (String × AssetInfo) → Nat → Option (BinaryReader × List (String × AssetInfo)))
    (s : Bool × List AssetInfo × BinaryReader × List (String × AssetInfo)) (o : Nat) :
    Bool × List AssetInfo × BinaryReader × List (String × AssetInfo) :=
  match s with
  | (false, acc, rdS, aS) => (false, acc, rdS, aS)
  | (true, acc, rdS, aS) =>
    match f rdS aS o with
    | none => (false, acc, rdS, aS)
    | some (rd1, a1) =>
      match rd1.resource_cache.lookup o with
      | none => (true, acc, rd1, a1)
      | some dk =>
        match a1.lookup dk with
        | none => (true, acc, rd1, a1)
        | some dep => (true, acc ++ [dep], rd1, a1)

/-- The guarded dependency block of `_read_binary_resource_location`
(the `if dependencies_offset != 0xFFFFFFFF: try: ...` section),
parametrised by the recursive decoder `f`.  Returns the decoded
`dependencies` list (`None` when absent, aborted or empty), the
`dependency_key` (set only for a successful single-offset array whose
offset is cached), and the reader/asset-map state, which keeps all
mutations made before a swallowed failure. -/
def dep_section (f : BinaryReader → List (String × AssetInfo) → Nat → Option (BinaryReader × List (String × AssetInfo)))
    (rd6 : BinaryReader) (assets : List (String × AssetInfo)) (depsOff : Nat) :
    Option (List AssetInfo) × Option String × BinaryReader × List (String × AssetInfo) :=
  if depsOff = SENTINEL then (none, none, rd6, assets)
  else match read_offset_array rd6 depsOff with
    | none => (none, none, rd6, assets)
    | some (offs, rd7) =>
      let r := offs.foldl (dep_step f) (true, [], rd7, assets)
      if r.1 then
        ((if r.2.1.isEmpty then none else some r.2.1),
         (if offs.length = 1 then r.2.2.1.resource_cache.lookup (offs.headD 0) else none),
         r.2.2.1, r.2.2.2)
      else (none, none, r.2.2.1, r.2.2.2)

/-- `UnityCatalogReader._read_binary_resource_location` together with
the enclosing `self.assets` map.  The cache guard returns immediately
for an already-visited offset; then the seven fixed record fields are
read; the primary key falls back to `"res_" + offset` when the resolved
string is `None` or `""` (Python's `or`); the dependency block runs
under a `try` whose failure (including fuel exhaustion of a recursive
call, Python's `RecursionError`) is swallowed, keeping all state
mutated so far; finally the visited-offset cache and the asset map are
updated.  Fuel models the interpreter's recursion limit: each recursive
dependency decode runs with one unit less. -/
def read_binary_resource_location (hh : String → Int) :
    Nat → BinaryReader → List (String × AssetInfo) → Nat → Option (BinaryReader × List (String × AssetInfo))
  | 0, _, _, _ => none
  | Nat.succ fuel, rd, assets, offset =>
    if (rd.resource_cache.lookup offset).isSome then some (rd, assets)
    else match (setPos rd (offset : Int)).u32 with
    | none => none
    | some (pkOff, rdA) =>
    match rdA.u32 with
    | none => none
    | some (iidOff, rdB) =>
    match rdB.u32 with
    | none => none
    | some (pidOff, rdC) =>
    match rdC.u32 with
    | none => none
    | some (depsOff, rdD) =>
    match rdD.i32 with
    | none => none
    | some (depHash, rdE) =>
    match rdE.u32 with
    | none => none
    | some (dataOff, rdF) =>
    match rdF.u32 with
    | none => none
    | some (typeOff, rd1) =>
    match read_encoded_string (Nat.succ fuel) rd1 pkOff "/" with
    | none => none
    | some (pkRes, rd2) =>
    let primary_key := pyOr pkRes ("res_" ++ toString offset)
    match read_encoded_string (Nat.succ fuel) rd2 iidOff "/" with
    | none => none
    | some (iidRes, rd3) =>
    let internal_id := iidRes.getD ""
    match read_encoded_string (Nat.succ fuel) rd3 pidOff "." with
    | none => none
    | some (pidRes, rd4) =>
    let provider_id := pidRes.getD ""
    match read_serialized_type (Nat.succ fuel) rd4 typeOff with
    | none => none
    | some (rty, rd5) =>
    match decode_object (Nat.succ fuel) rd5 dataOff with
    | none => none
    | some (dataV, rd6) =>
    let hash_code := hh internal_id * 31 + hh provider_id
    let dsec := dep_section (read_binary_resource_location hh fuel) rd6 assets depsOff
    let asset : AssetInfo :=
      match dataV with
      | some (.vDict d) =>
        .mk primary_key internal_id provider_id primary_key depHash dsec.2.1 dsec.1
          d.bundle_name d.bundle_size d.crc d.hash rty (some d) hash_code d.common_info
      | _ =>
        .mk primary_key internal_id provider_id primary_key depHash dsec.2.1 dsec.1
          "" 0 "" "" rty none hash_code none
    some ({ dsec.2.2.1 with resource_cache := upsert dsec.2.2.1.resource_cache offset primary_key },
          upsert dsec.2.2.2 primary_key asset)

/-- A bucket record of the textual catalog
(`{"offset": ..., "entries": [...]}` built from `bds.i32` values, so the
entries are signed). -/
structure JBucket where
  offset : Int
  entries : List Int
deriving DecidableEq, Repr

/-- The inner `for entry_idx in bucket["entries"]` loop of
`_parse_json_resources` (lines 638-641): an entry index passing the
`entry_idx < len(locations)` guard selects `locations[entry_idx]` with
Python indexing (negative indices count from the end; an index below
`-len` is an uncaught `IndexError`, i.e. failure) and inserts it under
its primary key. -/
def bucket_entries_insert (locations : List AssetInfo) :
    List (String × AssetInfo) → List Int → Option (List (String × AssetInfo))
  | assets, [] => some assets
  | assets, e :: rest =>
    if e < (locations.length : Int) then
      match pyGet locations e with
      | none => none
      | some loc => bucket_entries_insert locations (upsert assets loc.primary_key loc) rest
    else bucket_entries_insert locations assets rest

/-- The outer `for i, bucket in enumerate(buckets)` loop of
`_parse_json_resources` (lines 636-643): only buckets whose index is
below the number of decoded keys contribute entries. -/
def buckets_insert (keys : List String) (locations : List AssetInfo) :
    Nat → List (String × AssetInfo) → List JBucket → Option (List (String × AssetInfo))
  | _, assets, [] => some assets
  | i, assets, b :: bs =>
    if i < keys.length then
      match bucket_entries_insert locations assets b.entries with
      | none => none
      | some assets1 => buckets_insert keys locations (i + 1) assets1 bs
    else buckets_insert keys locations (i + 1) assets bs

/-- Does the bucket entry `e` pass the `entry_idx < len(locations)`
guard and select (via Python indexing) a location whose primary key is
`k`? -/
def bucket_selects (locations : List AssetInfo) (k : String) (e : Int) : Bool :=
  decide (e < (locations.length : Int)) &&
    (match pyGet locations e with
     | some a => a.primary_key == k
     | none => false)

/-- Starting from bucket index `i`, does some bucket whose index is
below the key count list an entry selecting a location with primary key
`k`? -/
def referenced_from (keys : List String) (locations : List AssetInfo) (k : String) :
    Nat → List JBucket → Bool
  | _, [] => false
  | i, b :: bs =>
    (decide (i < keys.length) && b.entries.any (bucket_selects locations k))
      || referenced_from keys locations k (i + 1) bs

/-- Decidable check that some bucket with index below the key count
lists an index that passes the guard and selects (via Python indexing)
a location whose primary key is `k`. -/
def referencedB (buckets : List JBucket) (keys : List String) (locations : List AssetInfo)
    (k : String) : Bool :=
  referenced_from keys locations k 0 buckets

/-- First dependency of an asset, when its `dependencies` list is
non-empty. -/
def depChild (a : AssetInfo) : Option AssetInfo :=
  match a.dependencies with
  | some (x :: _) => some x
  | _ => none

/-- Stand-in for Python's (process-randomised) string hash in concrete
evaluations. -/
def hhz : String → Int := fun _ => 0

/-- Concrete catalog fragment: a dependency-offset array at offset 4
(byte size 4, single element 8) and a location record at offset 8 whose
`dependencies` offset array contains the record's own offset 8; all
string/type/data offsets are the sentinel. -/
def selfLoopBuf : List Nat :=
  [4,0,0,0, 8,0,0,0,
   0xFF,0xFF,0xFF,0xFF, 0xFF,0xFF,0xFF,0xFF, 0xFF,0xFF,0xFF,0xFF,
   4,0,0,0, 0,0,0,0, 0xFF,0xFF,0xFF,0xFF, 0xFF,0xFF,0xFF,0xFF]

/-- Decode of the self-referential location at offset 8 with the given
recursion budget. -/
def selfLoopRun (fuel : Nat) : Option (BinaryReader × List (String × AssetInfo)) :=
  read_binary_resource_location hhz fuel (mkReader selfLoopBuf) [] 8

/-- The asset stored under the fallback key `"res_8"` after the
self-loop decode. -/
def selfLoopTop (fuel : Nat) : Option AssetInfo :=
  (selfLoopRun fuel).bind (fun p => p.2.lookup "res_8")

/-- Concrete buffer holding the basic strings `"a"`, `"b"`, `"c"` (at
offsets 4, 9, 14) and a three-node chain at offsets 15, 23, 31 linking
them in file order. -/
def chainBuf : List Nat :=
  [1,0,0,0, 0x61, 1,0,0,0, 0x62, 1,0,0,0, 0x63,
   4,0,0,0, 23,0,0,0,
   9,0,0,0, 31,0,0,0,
   14,0,0,0, 0xFF,0xFF,0xFF,0xFF]

/-- Concrete buffer holding the UTF-16 basic string `"a"` at masked
offset 4 (length 2 at offset 0, code unit `61 00` at offset 4). -/
def uniBuf : List Nat := [2,0,0,0, 0x61,0]

/-- Concrete typed-value buffer: record `(typeNameOffset = 8,
valueOffset = sentinel)` at offset 0; serialized type at offset 8 with
assembly-name string `"mscorlib"` (offset 20) and class-name string
`"System.Int32"` (offset 32). -/
def int32DefaultBuf : List Nat :=
  [8,0,0,0, 0xFF,0xFF,0xFF,0xFF,
   20,0,0,0, 32,0,0,0,
   8,0,0,0, 0x6D,0x73,0x63,0x6F,0x72,0x6C,0x69,0x62,
   12,0,0,0, 0x53,0x79,0x73,0x74,0x65,0x6D,0x2E,0x49,0x6E,0x74,0x33,0x32]

/-- Same record layout with class-name string `"Foo.Bar"` (an unknown
type for the dispatch table). -/
def unknownTypeBuf : List Nat :=
  [8,0,0,0, 0xFF,0xFF,0xFF,0xFF,
   20,0,0,0, 32,0,0,0,
   8,0,0,0, 0x6D,0x73,0x63,0x6F,0x72,0x6C,0x69,0x62,
   7,0,0,0, 0x46,0x6F,0x6F,0x2E,0x42,0x61,0x72]

/-- A 28-byte binary header: signature, version 1, `keysOffset = 32` and
four more offsets — the version-1 quirk layout with no sixth field. -/
def quirkHeaderBuf : List Nat :=
  [0x42,0x89,0xE3,0x0D, 1,0,0,0,
   32,0,0,0, 0xFF,0xFF,0xFF,0xFF, 0xFF,0xFF,0xFF,0xFF, 0xFF,0xFF,0xFF,0xFF, 0xFF,0xFF,0xFF,0xFF]

/-- A 32-byte binary header: version 2, so the sixth (`buildResultHash`)
offset field at byte 28 is read. -/
def fullHeaderBuf : List Nat :=
  [0x42,0x89,0xE3,0x0D, 2,0,0,0,
   32,0,0,0, 0xFF,0xFF,0xFF,0xFF, 0xFF,0xFF,0xFF,0xFF, 0xFF,0xFF,0xFF,0xFF, 0xFF,0xFF,0xFF,0xFF,
   0x99,0,0,0]

/-- A minimal asset used by the bucket-insertion examples. -/
def mkLoc (pk : String) : AssetInfo :=
  .mk pk "" "" pk 0 none none "" 0 "" "" none none 0 none

/-- The header decoded from `quirkHeaderBuf`. -/
def quirkHeader : CatalogHeader :=
  { version := 1, keys_offset := 32, id_offset := SENTINEL
    instance_provider_offset := SENTINEL, scene_provider_offset := SENTINEL
    init_objects_array_offset := SENTINEL, build_result_hash_offset := SENTINEL }

/-- The reader state after decoding the header of `quirkHeaderBuf`. -/
def quirkEndState : BinaryReader :=
  { data := quirkHeaderBuf, position := 28, version := 1
    string_cache := [], offset_cache := [], resource_cache := [] }

/-- A 28-byte location record at offset 0 whose seven fields are all
the sentinel except the dependency hash (0): primary key, internal id,
provider id, dependencies, data and type are all absent. -/
def noDepBuf : List Nat :=
  [0xFF,0xFF,0xFF,0xFF, 0xFF,0xFF,0xFF,0xFF, 0xFF,0xFF,0xFF,0xFF, 0xFF,0xFF,0xFF,0xFF,
   0,0,0,0, 0xFF,0xFF,0xFF,0xFF, 0xFF,0xFF,0xFF,0xFF]

/-- Reader state after decoding the `noDepBuf` record. -/
def noDepEnd : BinaryReader :=
  { data := noDepBuf, position := 28, version := 1
    string_cache := [], offset_cache := [], resource_cache := [(0, "res_0")] }

/-- The asset decoded from `noDepBuf`: every string fell back or
defaulted, so the key is the fallback `"res_0"`. -/
def noDepAsset : AssetInfo :=
  .mk "res_0" "" "" "res_0" 0 none none "" 0 "" "" none none 0 none

/-- The asset map produced by decoding `noDepBuf`. -/
def noDepMap : List (String × AssetInfo) := [("res_0", noDepAsset)]

/-- Reader state after walking the three-part chain of `chainBuf`. -/
def chainEndState : BinaryReader :=
  { data := chainBuf, position := 15, version := 1
    string_cache := [(14, some "c"), (9, some "b"), (4, some "a")]
    offset_cache := [], resource_cache := [] }

/-- Reader states and resolved type for the `int32DefaultBuf` record. -/
def c6st1 : BinaryReader := setPos (mkReader int32DefaultBuf) 4

def c6st2 : BinaryReader := setPos (mkReader int32DefaultBuf) 8

def c6ty : SerializedType := { assembly_name := "mscorlib", class_name := "System.Int32" }

def c6st3 : BinaryReader :=
  { data := int32DefaultBuf, position := 44, version := 1
    string_cache := [(32, some "System.Int32"), (20, some "mscorlib")]
    offset_cache := [], resource_cache := [] }

/-- Reader states and resolved type for the `unknownTypeBuf` record. -/
def c8st1 : BinaryReader := setPos (mkReader unknownTypeBuf) 4

def c8st2 : BinaryReader := setPos (mkReader unknownTypeBuf) 8

def c8ty : SerializedType := { assembly_name := "mscorlib", class_name := "Foo.Bar" }

def c8st3 : BinaryReader :=
  { data := unknownTypeBuf, position := 39, version := 1
    string_cache := [(32, some "Foo.Bar"), (20, some "mscorlib")]
    offset_cache := [], resource_cache := [] }

/-- Reader state after resolving the flagged offset `0x80000004` over
`uniBuf`. -/
def uniEndState : BinaryReader :=
  { data := uniBuf, position := 6, version := 1
    string_cache := [(4, some "a")], offset_cache := [], resource_cache := [] }

/-- C1 (counterexample): the claim says the decode of a location whose
dependency array contains its own offset is "bounded by the
visited-offset cache".  If that were so, the result would not depend on
the recursion budget once it allows a single revisit (the revisit would
return through the cache), i.e. `selfLoopRun 3 = selfLoopRun 4`.  In
fact the visited-offset cache for a record is only written after its
dependencies are resolved, so the self-referential offset is re-decoded
at every level and the nesting depth of the decoded dependency chain
tracks the recursion budget: with budget 3 the chain below the top
asset ends after two links, with budget 4 it does not — the recursion
is bounded by the interpreter's recursion limit, not by the cache. -/
theorem claim_C1_counterexample :
    ((((selfLoopTop 3).bind depChild).bind depChild).isSome = true ∧
      ((((selfLoopTop 3).bind depChild).bind depChild).bind depChild).isSome = false) ∧
    ((((selfLoopTop 4).bind depChild).bind depChild).bind depChild).isSome = true := by
  decide

/-- C1 (amended): decoding the location at offset 8 of `selfLoopBuf`,
whose dependency offset array contains the record's own offset 8,
terminates: the recursion stops at the interpreter's recursion limit
(fuel), the resulting `RecursionError` is swallowed by the
per-dependency `try`, and after unwinding the decode succeeds; the
visited-offset cache then maps offset 8 to the fallback key `"res_8"`,
`dependency_key` is that cached key, and the resulting `dependencies`
list contains the entry that was already cached and inserted for that
offset (its key and primary key are the cached key). -/
theorem claim_C1_self_reference :
    (selfLoopRun 5).isSome = true ∧
    (selfLoopRun 5).map (fun p => p.1.resource_cache.lookup 8) = some (some "res_8") ∧
    (selfLoopTop 5).map AssetInfo.dependency_key = some (some "res_8") ∧
    ((selfLoopTop 5).bind depChild).map AssetInfo.primary_key = some "res_8" ∧
    ((selfLoopTop 5).bind depChild).map AssetInfo.key = some "res_8" := by
  decide

/-- C3: evaluating `read_encoded_string` at the failing input — the raw
offset `0x80000004` (UTF-16 flag bit 31 set, real offset 4) over
`uniBuf` — shows the divergence from the claim: the resolution result
`"a"` is cached under the masked offset 4 and not under the original
raw offset `0x80000004` (the source rebinds `offset` to the masked
value before the cache store, while the cache lookup at entry uses the
raw offset), so a second call with the same raw offset misses the cache
and decodes the string again, observable here because the repeat call
moves the cursor to the end of the string data (position 6) where a
cache hit would leave it untouched at 0. -/
theorem claim_C3_cache_key_bug :
    read_encoded_string 5 (mkReader uniBuf) 0x80000004 "\x00" = some (some "a", uniEndState) ∧
    uniEndState.string_cache.lookup 0x80000004 = none ∧
    uniEndState.string_cache.lookup 4 = some (some "a") ∧
    (read_encoded_string 5 (setPos uniEndState 0) 0x80000004 "\x00").map
      (fun p => p.2.position) = some 6 := by
  decide

/-- C4 (counterexample): the leading bytes `45 89 E3 0D` named by the
spec are the little-endian encoding of `0x0DE38945`, which is neither
accepted magic value, so `_detect_file_type` classifies such a file as
textual (JSON), not binary. -/
theorem claim_C4_counterexample :
    detect_file_type [0x45, 0x89, 0xE3, 0x0D] = CatalogFileType.JSON ∧
    detect_file_type [0x45, 0x89, 0xE3, 0x0D] ≠ CatalogFileType.BINARY := by
  decide

/-- Length of a non-negative-base Python slice `l[a : a+n]`. -/
lemma pySlice_len_nonneg {α : Type} (l : List α) (a : Int) (n : Nat) (ha : 0 ≤ a) :
    (pySlice l a (a + n)).length = min n (l.length - min a.toNat l.length) := by
  simp only [pySlice, List.length_drop, List.length_take]
  split_ifs <;> omega

/-- A `k`-byte `struct` read succeeds exactly when the cursor and `k`
more bytes fit in the buffer. -/
lemma readExact_isSome (st : BinaryReader) (k : Nat) (hk : 1 ≤ k) (h0 : 0 ≤ st.position) :
    (readExact st k).isSome = true ↔ st.position.toNat + k ≤ st.data.length := by
  have hl : ((st.read (k : Int)).1).length
      = min k (st.data.length - min st.position.toNat st.data.length) :=
    pySlice_len_nonneg st.data st.position k h0
  have key : ((st.read (k : Int)).1.length = k) ↔ st.position.toNat + k ≤ st.data.length := by
    rw [hl]; omega
  by_cases hc : (st.read (k : Int)).1.length = k
  · simp only [readExact, hc, if_true, Option.isSome_some, true_iff]
    exact key.mp hc
  · simp only [readExact, hc, if_false, Option.isSome_none, Bool.false_eq_true, false_iff]
    exact fun hb => hc (key.mpr hb)

/-- C2 (counterexample): reading 4 bytes from a 2-byte buffer does not
fail — `read` returns the truncated 2-byte slice and still advances the
position by 4, although `position + 4` exceeds the buffer length;
the claimed `OutOfBounds` failure of `read` itself does not exist in
the code (only the fixed-width accessors fail, through
`struct.unpack`). -/
theorem claim_C2_counterexample :
    ((mkReader [0, 0]).read 4).1.length = 2 ∧
    ((mkReader [0, 0]).read 4).2.position = 4 ∧
    (mkReader [0, 0]).data.length < (mkReader [0, 0]).position.toNat + 4 := by
  decide

/-- C2 (amended): for every reader state with a non-negative cursor and
every `n`, `read(n)` always advances the position by exactly `n` and
returns the slice `data[position : position+n]`, which has exactly `n`
bytes when `position + n` fits in the buffer and is silently truncated
otherwise (no failure); each fixed-width accessor (`u8`, `u16`, `u32`,
`i32`, `i64`, `bool`), being defined in terms of `read` plus
`struct.unpack`, succeeds exactly when the cursor plus its width fits
in the buffer. -/
theorem claim_C2_read_contract (st : BinaryReader) (n : Nat) (h0 : 0 ≤ st.position) :
    ((st.read (n : Int)).2.position = st.position + n) ∧
    ((st.read (n : Int)).1.length
      = min n (st.data.length - min st.position.toNat st.data.length)) ∧
    (st.position.toNat + n ≤ st.data.length → (st.read (n : Int)).1.length = n) ∧
    (st.u8.isSome = true ↔ st.position.toNat + 1 ≤ st.data.length) ∧
    (st.u16.isSome = true ↔ st.position.toNat + 2 ≤ st.data.length) ∧
    (st.u32.isSome = true ↔ st.position.toNat + 4 ≤ st.data.length) ∧
    (st.i32.isSome = true ↔ st.position.toNat + 4 ≤ st.data.length) ∧
    (st.i64.isSome = true ↔ st.position.toNat + 8 ≤ st.data.length) ∧
    (st.bool_val.isSome = true ↔ st.position.toNat + 1 ≤ st.data.length) := by
  have hlen := pySlice_len_nonneg st.data st.position n h0
  refine ⟨rfl, hlen, ?_, ?_, ?_, ?_, ?_, ?_, ?_⟩
  · intro hb
    have h2 : (st.read (n : Int)).1.length
        = min n (st.data.length - min st.position.toNat st.data.length) := hlen
    omega
  · simp only [BinaryReader.u8, Option.isSome_map']
    exact readExact_isSome st 1 (by norm_num) h0
  · simp only [BinaryReader.u16, Option.isSome_map']
    exact readExact_isSome st 2 (by norm_num) h0
  · simp only [BinaryReader.u32, Option.isSome_map']
    exact readExact_isSome st 4 (by norm_num) h0
  · simp only [BinaryReader.i32, Option.isSome_map']
    exact readExact_isSome st 4 (by norm_num) h0
  · simp only [BinaryReader.i64, Option.isSome_map']
    exact readExact_isSome st 8 (by norm_num) h0
  · simp only [BinaryReader.bool_val, BinaryReader.u8, Option.isSome_map']
    exact readExact_isSome st 1 (by norm_num) h0

/-- C2 witness: the amended contract instantiated on the concrete
buffer `[1, 2, 3]` with `n = 2`. -/
theorem claim_C2_read_contract_witness :
    (0 : Int) ≤ (mkReader [1, 2, 3]).position ∧
    ((mkReader [1, 2, 3]).read ((2 : Nat) : Int)).2.position = (mkReader [1, 2, 3]).position + 2 ∧
    ((mkReader [1, 2, 3]).u32.isSome = true ↔
      (mkReader [1, 2, 3]).position.toNat + 4 ≤ (mkReader [1, 2, 3]).data.length) := by
  refine ⟨by decide, ?_, ?_⟩
  · exact (claim_C2_read_contract (mkReader [1, 2, 3]) 2 (by decide)).1
  · exact (claim_C2_read_contract (mkReader [1, 2, 3]) 2 (by decide)).2.2.2.2.2.1

/-- C4 (amended): a file whose leading four bytes are `42 89 E3 0D`
(the little-endian encoding of the magic `0x0DE38942`) is classified as
binary; in general, for any buffer of at least four bytes the binary
path is selected exactly when the leading little-endian `u32` is
`0x0DE38942` or `0x4289E30D`, and the textual path exactly otherwise. -/
theorem claim_C4_magic_dispatch (data : List Nat) (h : 4 ≤ data.length) :
    detect_file_type [0x42, 0x89, 0xE3, 0x0D] = CatalogFileType.BINARY ∧
    (detect_file_type data = CatalogFileType.BINARY ↔
      (leVal (data.take 4) = 0x0DE38942 ∨ leVal (data.take 4) = 0x4289E30D)) ∧
    (detect_file_type data = CatalogFileType.JSON ↔
      ¬(leVal (data.take 4) = 0x0DE38942 ∨ leVal (data.take 4) = 0x4289E30D)) := by
  have hlen : (data.take 4).length = 4 := by
    simp only [List.length_take]
    omega
  refine ⟨by decide, ?_, ?_⟩ <;>
  · unfold detect_file_type
    rw [if_pos hlen]
    by_cases hm : leVal (data.take 4) = 0x0DE38942 ∨ leVal (data.take 4) = 0x4289E30D
    · simp [hm]
    · simp [hm]

/-- C4 witness: the dispatch rule instantiated on a concrete 5-byte
buffer starting with the corrected magic bytes. -/
theorem claim_C4_magic_dispatch_witness :
    4 ≤ [0x42, 0x89, 0xE3, 0x0D, 7].length ∧
    detect_file_type [0x42, 0x89, 0xE3, 0x0D] = CatalogFileType.BINARY ∧
    (detect_file_type [0x42, 0x89, 0xE3, 0x0D, 7] = CatalogFileType.BINARY ↔
      (leVal ([0x42, 0x89, 0xE3, 0x0D, 7].take 4) = 0x0DE38942 ∨
       leVal ([0x42, 0x89, 0xE3, 0x0D, 7].take 4) = 0x4289E30D)) := by
  refine ⟨by decide, ?_, ?_⟩
  · exact (claim_C4_magic_dispatch [0x42, 0x89, 0xE3, 0x0D, 7] (by decide)).1
  · exact (claim_C4_magic_dispatch [0x42, 0x89, 0xE3, 0x0D, 7] (by decide)).2.1

/-- C5: if walking the chain at `offset` collects the parts
`["a", "b", "c"]` (in file order) with caller-supplied separator `"/"`,
then `read_dynamic_string` returns `"a/b/c"` when the reader's schema
version is `≤ 1` and `"c/b/a"` otherwise (i.e. for version `≥ 2`,
since versions are naturals): the parts are joined with the separator,
in reverse file order for version `≥ 2`. -/
theorem claim_C5_chain_order (fuel : Nat) (st : BinaryReader) (offset : Nat) (uni : Bool)
    (st1 : BinaryReader)
    (h : chain_walk fuel (setPos st (offset : Int)) uni "/"
      = some ([some "a", some "b", some "c"], st1)) :
    read_dynamic_string (fuel + 1) st offset uni "/"
      = some (some (if st1.version ≤ 1 then "a/b/c" else "c/b/a"), st1) := by
  simp only [read_dynamic_string, h]
  by_cases hv : st1.version ≤ 1
  · simp only [hv, if_true]
    rfl
  · simp only [hv, if_false]
    rfl

/-- C5 witness: the chain at offset 15 of `chainBuf` collects
`["a", "b", "c"]` and resolves to `"a/b/c"` under the version-1
reader. -/
theorem claim_C5_chain_order_witness :
    chain_walk 10 (setPos (mkReader chainBuf) ((15 : Nat) : Int)) false "/"
      = some ([some "a", some "b", some "c"], chainEndState) ∧
    read_dynamic_string 11 (mkReader chainBuf) 15 false "/"
      = some (some (if chainEndState.version ≤ 1 then "a/b/c" else "c/b/a"), chainEndState) := by
  refine ⟨by decide, ?_⟩
  exact claim_C5_chain_order 10 (mkReader chainBuf) 15 false chainEndState (by decide)

/-- C6: for any typed-value record at `offset` whose second field
(`valueOffset`) is the sentinel, once the two header words and the type
descriptor have been read (hypotheses pin these reads), `decode_object`
returns the matched type's zero value — `0` for a match name containing
`System.Int32` or `System.Int64` (in the source's dispatch order),
`false` for `System.Boolean`, `""` for `System.String`, and `None` for
`UnityEngine.Hash128` and `AssetBundleRequestOptions` — and the final
reader state is exactly the state `st3` left by the type resolution: no
further seek or read of the value is performed. -/
theorem claim_C6_default_values (fuel : Nat) (st : BinaryReader) (offset tOff : Nat)
    (st1 st2 st3 : BinaryReader) (ty : SerializedType)
    (hoff : offset ≠ SENTINEL)
    (h1 : (setPos st (offset : Int)).u32 = some (tOff, st1))
    (h2 : st1.u32 = some (SENTINEL, st2))
    (ht : tOff ≠ 0)
    (h3 : read_serialized_type fuel st2 tOff = some (some ty, st3)) :
    (hasSub ty.get_match_name "System.Int32" = true →
      decode_object fuel st offset = some (some (.vInt 0), st3)) ∧
    (hasSub ty.get_match_name "System.Int32" = false →
      hasSub ty.get_match_name "System.Int64" = true →
      decode_object fuel st offset = some (some (.vInt 0), st3)) ∧
    (hasSub ty.get_match_name "System.Int32" = false →
      hasSub ty.get_match_name "System.Int64" = false →
      hasSub ty.get_match_name "System.Boolean" = true →
      decode_object fuel st offset = some (some (.vBool false), st3)) ∧
    (hasSub ty.get_match_name "System.Int32" = false →
      hasSub ty.get_match_name "System.Int64" = false →
      hasSub ty.get_match_name "System.Boolean" = false →
      hasSub ty.get_match_name "System.String" = true →
      decode_object fuel st offset = some (some (.vStr ""), st3)) ∧
    (hasSub ty.get_match_name "System.Int32" = false →
      hasSub ty.get_match_name "System.Int64" = false →
      hasSub ty.get_match_name "System.Boolean" = false →
      hasSub ty.get_match_name "System.String" = false →
      hasSub ty.get_match_name "UnityEngine.Hash128" = true →
      decode_object fuel st offset = some (none, st3)) ∧
    (hasSub ty.get_match_name "System.Int32" = false →
      hasSub ty.get_match_name "System.Int64" = false →
      hasSub ty.get_match_name "System.Boolean" = false →
      hasSub ty.get_match_name "System.String" = false →
      hasSub ty.get_match_name "UnityEngine.Hash128" = false →
      hasSub ty.get_match_name "AssetBundleRequestOptions" = true →
      decode_object fuel st offset = some (none, st3)) := by
  refine ⟨?_, ?_, ?_, ?_, ?_, ?_⟩
  · intro hA
    simp only [decode_object, if_neg hoff, h1, h2, if_neg ht, h3, hA]
    simp
  · intro hA hB
    simp only [decode_object, if_neg hoff, h1, h2, if_neg ht, h3, hA, hB]
    simp
  · intro hA hB hC
    simp only [decode_object, if_neg hoff, h1, h2, if_neg ht, h3, hA, hB, hC]
    simp
  · intro hA hB hC hD
    simp only [decode_object, if_neg hoff, h1, h2, if_neg ht, h3, hA, hB, hC, hD]
    simp
  · intro hA hB hC hD hE
    simp only [decode_object, if_neg hoff, h1, h2, if_neg ht, h3, hA, hB, hC, hD, hE]
    simp
  · intro hA hB hC hD hE hF
    simp only [decode_object, if_neg hoff, h1, h2, if_neg ht, h3, hA, hB, hC, hD, hE, hF]
    simp

/-- C6 witness: the record of `int32DefaultBuf` (type `System.Int32`,
value offset = sentinel) decodes to `0` with the reader left at the
state reached by the type resolution. -/
theorem claim_C6_default_values_witness :
    (0 : Nat) ≠ SENTINEL ∧
    (setPos (mkReader int32DefaultBuf) ((0 : Nat) : Int)).u32 = some (8, c6st1) ∧
    c6st1.u32 = some (SENTINEL, c6st2) ∧
    read_serialized_type 5 c6st2 8 = some (some c6ty, c6st3) ∧
    hasSub c6ty.get_match_name "System.Int32" = true ∧
    decode_object 5 (mkReader int32DefaultBuf) 0 = some (some (.vInt 0), c6st3) := by
  refine ⟨by decide, by decide, by decide, by decide, by decide, ?_⟩
  exact (claim_C6_default_values 5 (mkReader int32DefaultBuf) 0 8 c6st1 c6st2 c6st3 c6ty
    (by decide) (by decide) (by decide) (by decide) (by decide)).1 (by decide)

/-- C8: for any typed-value record at `offset` (hypotheses pin the two
header reads), `decode_object` returns `None` without raising — the
result is `some (none, _)`, a normal return of an absent value — both
when the type-descriptor offset is the explicit no-type marker `0` and
when the resolved type's match name matches none of the six entries of
the dispatch table; decoding of the enclosing location then continues
with this absent value. -/
theorem claim_C8_unknown_type (fuel : Nat) (st : BinaryReader) (offset tOff vOff : Nat)
    (st1 st2 st3 : BinaryReader) (ty : SerializedType)
    (hoff : offset ≠ SENTINEL)
    (h1 : (setPos st (offset : Int)).u32 = some (tOff, st1))
    (h2 : st1.u32 = some (vOff, st2)) :
    (tOff = 0 → decode_object fuel st offset = some (none, st2)) ∧
    (tOff ≠ 0 →
      read_serialized_type fuel st2 tOff = some (some ty, st3) →
      hasSub ty.get_match_name "System.Int32" = false →
      hasSub ty.get_match_name "System.Int64" = false →
      hasSub ty.get_match_name "System.Boolean" = false →
      hasSub ty.get_match_name "System.String" = false →
      hasSub ty.get_match_name "UnityEngine.Hash128" = false →
      hasSub ty.get_match_name "AssetBundleRequestOptions" = false →
      decode_object fuel st offset = some (none, st3)) := by
  constructor
  · intro h0
    subst h0
    simp only [decode_object, if_neg hoff, h1, h2]
    simp
  · intro ht h3 hA hB hC hD hE hF
    simp only [decode_object, if_neg hoff, h1, h2, if_neg ht, h3, hA, hB, hC, hD, hE, hF]
    simp

/-- C8 witness: the record of `unknownTypeBuf` resolves to the type
`mscorlib; Foo.Bar`, which matches no dispatch entry, and decodes to an
absent value without error. -/
theorem claim_C8_unknown_type_witness :
    (8 : Nat) ≠ 0 ∧
    read_serialized_type 5 c8st2 8 = some (some c8ty, c8st3) ∧
    hasSub c8ty.get_match_name "System.Int32" = false ∧
    hasSub c8ty.get_match_name "AssetBundleRequestOptions" = false ∧
    decode_object 5 (mkReader unknownTypeBuf) 0 = some (none, c8st3) := by
  refine ⟨by decide, by decide, by decide, by decide, ?_⟩
  exact (claim_C8_unknown_type 5 (mkReader unknownTypeBuf) 0 8 SENTINEL c8st1 c8st2 c8st3 c8ty
    (by decide) (by decide) (by decide)).2 (by decide) (by decide) (by decide) (by decide)
    (by decide) (by decide) (by decide) (by decide)

/-- Successful `u32`: the new state is the old one with the cursor
advanced by 4 and the value is the little-endian word at the old
cursor. -/
lemma u32_spec (st : BinaryReader) (v : Nat) (st' : BinaryReader) (h : st.u32 = some (v, st')) :
    st' = setPos st (st.position + 4) ∧
    v = leVal (pySlice st.data st.position (st.position + 4)) := by
  unfold BinaryReader.u32 at h
  rcases Option.map_eq_some'.mp h with ⟨r, hr, heq⟩
  unfold readExact at hr
  simp only [] at hr
  split at hr
  · injection hr with hr1
    subst hr1
    injection heq with heqv heqs
    exact ⟨heqs.symm, heqv.symm⟩
  · cases hr

/-- C7: whenever `load_binary_header` succeeds, the
`version = 1 ∧ keysOffset = 32` quirk header ends with the cursor at
byte 28 — the five-field layout, no sixth offset read from the buffer,
the `buildResultHash` offset being the substituted sentinel constant —
while every other accepted header ends with the cursor at byte 32 and
its `buildResultHash` offset equal to the little-endian word actually
read from bytes 28..31 of the buffer. -/
theorem claim_C7_header_quirk (data : List Nat) (hdr : CatalogHeader) (st : BinaryReader)
    (hs : load_binary_header data = some (hdr, st)) :
    (hdr.version = 1 ∧ hdr.keys_offset = 32 →
      hdr.build_result_hash_offset = SENTINEL ∧ st.position = 28) ∧
    (¬(hdr.version = 1 ∧ hdr.keys_offset = 32) →
      st.position = 32 ∧ hdr.build_result_hash_offset = leVal (pySlice data 28 32)) := by
  unfold load_binary_header at hs
  simp only [] at hs
  split at hs
  · cases hs
  rename_i version st1 heq1
  split at hs
  · cases hs
  rename_i hver
  split at hs
  · cases hs
  rename_i keysOff st2 heq2
  split at hs
  · cases hs
  rename_i idOff st3 heq3
  split at hs
  · cases hs
  rename_i ipOff st4 heq4
  split at hs
  · cases hs
  rename_i spOff st5 heq5
  split at hs
  · cases hs
  rename_i ioOff st6 heq6
  split at hs
  · rename_i hq
    cases hs
    obtain ⟨e2, _⟩ := u32_spec _ _ _ heq2
    obtain ⟨e3, _⟩ := u32_spec _ _ _ heq3
    obtain ⟨e4, _⟩ := u32_spec _ _ _ heq4
    obtain ⟨e5, _⟩ := u32_spec _ _ _ heq5
    obtain ⟨e6, _⟩ := u32_spec _ _ _ heq6
    subst e6; subst e5; subst e4; subst e3; subst e2
    obtain ⟨e1, _⟩ := u32_spec _ _ _ heq1
    subst e1
    constructor
    · intro _
      refine ⟨rfl, ?_⟩
      norm_num [setPos, BinaryReader.read, mkReader]
    · intro hn
      exact absurd hq hn
  · rename_i hq
    split at hs
    · cases hs
    rename_i brhOff st7 heq7
    cases hs
    obtain ⟨e2, _⟩ := u32_spec _ _ _ heq2
    obtain ⟨e3, _⟩ := u32_spec _ _ _ heq3
    obtain ⟨e4, _⟩ := u32_spec _ _ _ heq4
    obtain ⟨e5, _⟩ := u32_spec _ _ _ heq5
    obtain ⟨e6, _⟩ := u32_spec _ _ _ heq6
    obtain ⟨e7, hv7⟩ := u32_spec _ _ _ heq7
    subst e7; subst e6; subst e5; subst e4; subst e3; subst e2
    obtain ⟨e1, _⟩ := u32_spec _ _ _ heq1
    subst e1
    constructor
    · intro hq2
      exact absurd hq2 hq
    · intro _
      constructor
      · norm_num [setPos, BinaryReader.read, mkReader]
      · rw [hv7]
        norm_num [setPos, BinaryReader.read, mkReader]

/-- C7 witness: the 28-byte `quirkHeaderBuf` decodes with the
five-field layout (cursor left at 28, sentinel `buildResultHash`). -/
theorem claim_C7_header_quirk_witness :
    load_binary_header quirkHeaderBuf = some (quirkHeader, quirkEndState) ∧
    (quirkHeader.version = 1 ∧ quirkHeader.keys_offset = 32) ∧
    quirkHeader.build_result_hash_offset = SENTINEL ∧ quirkEndState.position = 28 := by
  refine ⟨by decide, ⟨by decide, by decide⟩, ?_⟩
  exact (claim_C7_header_quirk quirkHeaderBuf quirkHeader quirkEndState (by decide)).1
    ⟨by decide, by decide⟩

/-- Lookup after an overwriting insert at the inserted key. -/
lemma lookup_upsert_self {κ ν : Type} [BEq κ] [LawfulBEq κ] (m : List (κ × ν)) (k : κ) (v : ν) :
    (upsert m k v).lookup k = some v := by
  simp [upsert, List.lookup]

/-- Removing the entries of a different key does not change a lookup. -/
lemma lookup_filter_ne {κ ν : Type} [BEq κ] [LawfulBEq κ]
    (m : List (κ × ν)) (k k' : κ) (h : k ≠ k') :
    (m.filter (fun p => !(p.1 == k'))).lookup k = m.lookup k := by
  induction m with
  | nil => rfl
  | cons a t ih =>
    by_cases ha : a.1 == k'
    · have hka : (k == a.1) = false := by
        have : a.1 = k' := eq_of_beq ha
        subst this
        exact beq_eq_false_iff_ne.mpr h
      simp [List.filter_cons, ha, List.lookup, hka, ih]
    · simp only [List.filter_cons, ha, Bool.not_false, if_true]
      by_cases hk : k == a.1
      · simp [List.lookup, hk]
      · simp [List.lookup, hk, ih]

/-- Lookup after an overwriting insert at a different key. -/
lemma lookup_upsert_ne {κ ν : Type} [BEq κ] [LawfulBEq κ]
    (m : List (κ × ν)) (k k' : κ) (v : ν) (h : k ≠ k') :
    (upsert m k' v).lookup k = m.lookup k := by
  have hkk : (k == k') = false := beq_eq_false_iff_ne.mpr h
  simp [upsert, List.lookup, hkk, lookup_filter_ne m k k' h]

/-- A key found after one bucket's entry loop was either selected by
one of the processed entries or was already present. -/
lemma bei_mem (locations : List AssetInfo) (es : List Int) :
    ∀ m0 m, bucket_entries_insert locations m0 es = some m →
    ∀ k a, m.lookup k = some a →
      (es.any (bucket_selects locations k) = true ∧ a.primary_key = k) ∨ m0.lookup k = some a := by
  induction es with
  | nil =>
    intro m0 m h k a hl
    injection h with h
    exact .inr (h ▸ hl)
  | cons e rest ih =>
    intro m0 m h k a hl
    unfold bucket_entries_insert at h
    split at h
    · rename_i hg
      split at h
      · cases h
      · rename_i loc hget
        rcases ih _ _ h k a hl with ⟨hany, hpk⟩ | hm0
        · exact .inl ⟨by simp [List.any_cons, hany], hpk⟩
        · by_cases hk : k = loc.primary_key
          · subst hk
            rw [lookup_upsert_self] at hm0
            injection hm0 with hh
            subst hh
            refine .inl ⟨?_, rfl⟩
            simp only [List.any_cons, Bool.or_eq_true]
            left
            simp [bucket_selects, hg, hget]
          · rw [lookup_upsert_ne _ _ _ _ hk] at hm0
            exact .inr hm0
    · rcases ih _ _ h k a hl with ⟨hany, hpk⟩ | hm0
      · exact .inl ⟨by simp [List.any_cons, hany], hpk⟩
      · exact .inr hm0

/-- A key found after the bucket pass was either selected by a bucket
with index below the key count or was already present. -/
lemma bki_mem (keys : List String) (locations : List AssetInfo) (bs : List JBucket) :
    ∀ i m0 m, buckets_insert keys locations i m0 bs = some m →
    ∀ k a, m.lookup k = some a →
      (referenced_from keys locations k i bs = true ∧ a.primary_key = k) ∨ m0.lookup k = some a := by
  induction bs with
  | nil =>
    intro i m0 m h k a hl
    injection h with h
    exact .inr (h ▸ hl)
  | cons b rest ih =>
    intro i m0 m h k a hl
    unfold buckets_insert at h
    split at h
    · rename_i hg
      split at h
      · cases h
      · rename_i m1 hbei
        rcases ih _ _ _ h k a hl with ⟨href, hpk⟩ | hm1
        · exact .inl ⟨by simp [referenced_from, href], hpk⟩
        · rcases bei_mem locations _ _ _ hbei k a hm1 with ⟨hany, hpk⟩ | hm0
          · exact .inl ⟨by simp [referenced_from, hg, hany], hpk⟩
          · exact .inr hm0
    · rcases ih _ _ _ h k a hl with ⟨href, hpk⟩ | hm0
      · exact .inl ⟨by simp [referenced_from, href], hpk⟩
      · exact .inr hm0

/-- C10: in the textual parser's final pass, a location is present in
the produced key→location map (started empty) only if some bucket whose
index is below the number of decoded keys lists an entry index that
passes the `entry_idx < len(locations)` guard and selects that
location's primary key under Python indexing; consequently entries
referenced by no such bucket are silently omitted — witnessed by the
closed conjuncts, where two locations were decoded but the single
bucket references only entry 0, so the final map has one element. -/
theorem claim_C10_bucket_gating (buckets : List JBucket) (keys : List String)
    (locations : List AssetInfo) (m : List (String × AssetInfo))
    (hres : buckets_insert keys locations 0 [] buckets = some m) :
    (∀ k a, m.lookup k = some a →
      referencedB buckets keys locations k = true ∧ a.primary_key = k) ∧
    (buckets_insert ["k0"] [mkLoc "p0", mkLoc "p1"] 0 [] [⟨0, [0]⟩]).map List.length = some 1 ∧
    ([mkLoc "p0", mkLoc "p1"] : List AssetInfo).length = 2 := by
  refine ⟨?_, rfl, rfl⟩
  intro k a hl
  rcases bki_mem keys locations buckets 0 [] m hres k a hl with ⟨href, hpk⟩ | hm0
  · exact ⟨href, hpk⟩
  · cases hm0

/-- C10 witness: the gating theorem instantiated on the concrete
one-bucket pass. -/
theorem claim_C10_bucket_gating_witness :
    buckets_insert ["k0"] [mkLoc "p0", mkLoc "p1"] 0 [] [⟨0, [0]⟩] = some [("p0", mkLoc "p0")] ∧
    referencedB [⟨0, [0]⟩] ["k0"] [mkLoc "p0", mkLoc "p1"] "p0" = true ∧
    (mkLoc "p0").primary_key = "p0" := by
  refine ⟨rfl, ?_⟩
  exact (claim_C10_bucket_gating [⟨0, [0]⟩] ["k0"] [mkLoc "p0", mkLoc "p1"]
    [("p0", mkLoc "p0")] rfl).1 "p0" (mkLoc "p0") rfl

/-- Python's `x or d` for strings never yields `""` when the default is
non-empty. -/
lemma pyOr_ne_empty (x : Option String) (d : String) (hd : d ≠ "") : pyOr x d ≠ "" := by
  unfold pyOr
  match x with
  | none => exact hd
  | some s =>
    by_cases hs : s = ""
    · simp [hs, hd]
    · simp [hs]

/-- The fallback key `"res_" + offset` is never empty. -/
lemma res_fallback_ne (s : String) : ("res_" ++ s) ≠ "" := by
  intro h
  have : ("res_" ++ s).data = ("" : String).data := by rw [h]
  rw [String.data_append] at this
  simp at this

/-- Membership after an overwriting insert. -/
lemma mem_upsert {κ ν : Type} [BEq κ] (m : List (κ × ν)) (k : κ) (v : ν)
    (p : κ × ν) (hp : p ∈ upsert m k v) : p = (k, v) ∨ p ∈ m := by
  unfold upsert at hp
  rcases List.mem_cons.mp hp with h | h
  · exact .inl h
  · exact .inr (List.mem_filter.mp h).1

/-- The dependency loop preserves "all map keys are non-empty" as long
as the recursive decoder `f` does. -/
lemma dep_fold_inv (f : BinaryReader → List (String × AssetInfo) → Nat → Option (BinaryReader × List (String × AssetInfo)))
    (hf : ∀ rd assets offset rd' assets', f rd assets offset = some (rd', assets') →
      (∀ p ∈ assets, p.1 ≠ "") → ∀ p ∈ assets', p.1 ≠ "") :
    ∀ (offs : List Nat) (s : Bool × List AssetInfo × BinaryReader × List (String × AssetInfo)),
      (∀ p ∈ s.2.2.2, p.1 ≠ "") →
      ∀ p ∈ (offs.foldl (dep_step f) s).2.2.2, p.1 ≠ "" := by
  intro offs
  induction offs with
  | nil => intro s hs; exact hs
  | cons o os ih =>
    intro s hs
    rw [List.foldl_cons]
    apply ih
    obtain ⟨ok, acc, rdS, aS⟩ := s
    cases ok
    · exact hs
    · unfold dep_step
      split
      · rename_i heq
        exact absurd heq (by simp)
      · rename_i acc2 rdS2 aS2 heq
        cases heq
        split
        · exact hs
        · rename_i rd1 a1 hfeq
          split
          · exact hf _ _ _ _ _ hfeq hs
          · split
            · exact hf _ _ _ _ _ hfeq hs
            · exact hf _ _ _ _ _ hfeq hs

/-- The guarded dependency section preserves "all map keys are
non-empty". -/
lemma dep_section_inv (f : BinaryReader → List (String × AssetInfo) → Nat → Option (BinaryReader × List (String × AssetInfo)))
    (hf : ∀ rd assets offset rd' assets', f rd assets offset = some (rd', assets') →
      (∀ p ∈ assets, p.1 ≠ "") → ∀ p ∈ assets', p.1 ≠ "")
    (rd6 : BinaryReader) (assets : List (String × AssetInfo)) (depsOff : Nat)
    (hinv : ∀ p ∈ assets, p.1 ≠ "") :
    ∀ p ∈ (dep_section f rd6 assets depsOff).2.2.2, p.1 ≠ "" := by
  unfold dep_section
  split
  · exact hinv
  · split
    · exact hinv
    · rename_i offs rd7 heq
      simp only []
      split
      · exact dep_fold_inv f hf offs (true, [], rd7, assets) hinv
      · exact dep_fold_inv f hf offs (true, [], rd7, assets) hinv

/-- Every key inserted by `_read_binary_resource_location` (at any
recursion depth) is non-empty: the inserted key is `pyOr` of the
resolved primary key with the non-empty fallback `"res_" + offset`. -/
lemma rbrl_keys_nonempty (hh : String → Int) :
    ∀ (fuel : Nat) (rd : BinaryReader) (assets : List (String × AssetInfo)) (offset : Nat)
      (rd' : BinaryReader) (assets' : List (String × AssetInfo)),
      read_binary_resource_location hh fuel rd assets offset = some (rd', assets') →
      (∀ p ∈ assets, p.1 ≠ "") → ∀ p ∈ assets', p.1 ≠ "" := by
  intro fuel
  induction fuel with
  | zero => intro rd assets offset rd' assets' h _; cases h
  | succ fuel ih =>
    intro rd assets offset rd' assets' h hinv
    unfold read_binary_resource_location at h
    simp only [] at h
    split at h
    · cases h
      exact hinv
    split at h
    · cases h
    rename_i pkOff rdA heqA
    split at h
    · cases h
    rename_i iidOff rdB heqB
    split at h
    · cases h
    rename_i pidOff rdC heqC
    split at h
    · cases h
    rename_i depsOff rdD heqD
    split at h
    · cases h
    rename_i depHash rdE heqE
    split at h
    · cases h
    rename_i dataOff rdF heqF
    split at h
    · cases h
    rename_i typeOff rd1 heqG
    split at h
    · cases h
    rename_i pkRes rd2 heqH
    split at h
    · cases h
    rename_i iidRes rd3 heqI
    split at h
    · cases h
    rename_i pidRes rd4 heqJ
    split at h
    · cases h
    rename_i rty rd5 heqK
    split at h
    · cases h
    rename_i dataV rd6 heqL
    cases h
    intro p hp
    rcases mem_upsert _ _ _ p hp with hpe | hpm
    · rw [hpe]
      exact pyOr_ne_empty _ _ (res_fallback_ne _)
    · exact dep_section_inv _ ih _ _ _ hinv p hpm

/-- C9: for a binary location record whose primary-key string resolves
to an absent value (`None`, e.g. a sentinel offset, or the falsy `""`;
the hypotheses pin the record reads), a successful decode inserts the
location into the asset map under the fallback key
`"res_" + offset`, and both the `key` and `primary_key` of the stored
location equal that fallback; moreover every key in the produced map is
non-empty (given the input map only had non-empty keys), since any
location's key is either a non-empty resolved string or the non-empty
fallback. -/
theorem claim_C9_fallback_key (hh : String → Int) (fuel : Nat) (rd : BinaryReader)
    (assets : List (String × AssetInfo)) (offset : Nat)
    (rd' rdA rdB rdC rdD rdE rdF rd1 rd2 : BinaryReader)
    (assets' : List (String × AssetInfo)) (pkRes : Option String)
    (pkOff iidOff pidOff depsOff dataOff typeOff : Nat) (depHash : Int)
    (hc : rd.resource_cache.lookup offset = none)
    (hA : (setPos rd (offset : Int)).u32 = some (pkOff, rdA))
    (hB : rdA.u32 = some (iidOff, rdB))
    (hC : rdB.u32 = some (pidOff, rdC))
    (hD : rdC.u32 = some (depsOff, rdD))
    (hE : rdD.i32 = some (depHash, rdE))
    (hF : rdE.u32 = some (dataOff, rdF))
    (hG : rdF.u32 = some (typeOff, rd1))
    (hH : read_encoded_string (fuel + 1) rd1 pkOff "/" = some (pkRes, rd2))
    (habs : pkRes = none ∨ pkRes = some "")
    (hres : read_binary_resource_location hh (fuel + 1) rd assets offset = some (rd', assets'))
    (hinv : ∀ p ∈ assets, p.1 ≠ "") :
    (assets'.lookup ("res_" ++ toString offset)).map AssetInfo.key
      = some ("res_" ++ toString offset) ∧
    (assets'.lookup ("res_" ++ toString offset)).map AssetInfo.primary_key
      = some ("res_" ++ toString offset) ∧
    (∀ p ∈ assets', p.1 ≠ "") := by
  refine ⟨?_, ?_, rbrl_keys_nonempty hh (fuel + 1) rd assets offset rd' assets' hres hinv⟩ <;>
  · have hpy : pyOr pkRes ("res_" ++ toString offset) = "res_" ++ toString offset := by
      rcases habs with hn | he
      · rw [hn]; rfl
      · rw [he]; rfl
    unfold read_binary_resource_location at hres
    simp only [] at hres
    rw [hc] at hres
    simp only [Option.isSome_none, Bool.false_eq_true, if_false] at hres
    simp only [hA, hB, hC, hD, hE, hF, hG, hH, hpy] at hres
    split at hres
    · cases hres
    rename_i iidRes rd3 heqI
    split at hres
    · cases hres
    rename_i pidRes rd4 heqJ
    split at hres
    · cases hres
    rename_i rty rd5 heqK
    split at hres
    · cases hres
    rename_i dataV rd6 heqL
    cases hres
    rw [lookup_upsert_self]
    rcases dataV with _ | v
    · rfl
    · rcases v with i | b | s | d <;> rfl

/-- C9 witness: the all-sentinel record of `noDepBuf` decodes to a
location keyed `"res_0"`. -/
theorem claim_C9_fallback_key_witness :
    read_binary_resource_location hhz 5 (mkReader noDepBuf) [] 0 = some (noDepEnd, noDepMap) ∧
    (noDepMap.lookup ("res_" ++ toString (0 : Nat))).map AssetInfo.key
      = some ("res_" ++ toString (0 : Nat)) ∧
    (noDepMap.lookup ("res_" ++ toString (0 : Nat))).map AssetInfo.primary_key
      = some ("res_" ++ toString (0 : Nat)) := by
  have h := claim_C9_fallback_key hhz 4 (mkReader noDepBuf) [] 0
    noDepEnd (setPos (mkReader noDepBuf) 4) (setPos (mkReader noDepBuf) 8)
    (setPos (mkReader noDepBuf) 12) (setPos (mkReader noDepBuf) 16)
    (setPos (mkReader noDepBuf) 20) (setPos (mkReader noDepBuf) 24)
    (setPos (mkReader noDepBuf) 28) (setPos (mkReader noDepBuf) 28)
    noDepMap none SENTINEL SENTINEL SENTINEL SENTINEL SENTINEL SENTINEL 0
    (by decide) (by decide) (by decide) (by decide) (by decide) (by decide)
    (by decide) (by decide) (by decide) (.inl rfl) rfl (by simp)
  exact ⟨rfl, h.1, h.2.1⟩
